import Mathlib

/-!
# Verification of the semantic-search document store and vector search engine

Shallow embedding of the core of the `semantic-search-next-app` repository:

* `src/lib/embedding.ts` — `EmbeddingService.cosineSimilarity` (length check,
  zero-magnitude guard, clamp to `[-1, 1]`);
* `src/app/api/search/route.ts` — the route-local `cosineSimilarity`
  (no length check, no clamp) and the search `POST` handler
  (score every document, stable sort descending, `slice(0, limit)`);
* `src/lib/search.ts` — `VectorSearch.bruteForceSearch` (scores through the
  checking `EmbeddingService.cosineSimilarity`, so a dimension mismatch
  aborts the whole pass with an exception);
* `src/lib/storage.ts` — `JSONStorage` (`getAllDocuments`, `saveDocuments`,
  `addDocument`, `getStats`);
* `src/app/api/data/route.ts` — the ingestion `POST` handler.

JavaScript floating point numbers are modelled as real numbers `ℝ`; the one
place where a `NaN` can genuinely arise (the route-local `cosineSimilarity`
applied to a query strictly longer than a document embedding) is modelled
explicitly with `Option ℝ` (`none` = `NaN`).  Thrown exceptions are modelled
with `Except`.  Wall-clock fields (`processingTime`) are omitted: no claim
mentions them and they are not statable in a pure embedding.
-/

/-- `metadata` of a stored document (`src/lib/storage.ts`, interface
`Document`).  `createdAt` is an opaque timestamp string; `category` is
optional; `length` is the character count captured at insertion. -/
structure Metadata where
  createdAt : String
  category : Option String
  length : Nat
deriving DecidableEq, Repr

/-- A stored document (`src/lib/storage.ts`, interface `Document`).
Embeddings are sequences of JS numbers, modelled as `List ℝ`. -/
structure Document where
  id : String
  text : String
  embedding : List ℝ
  metadata : Metadata

/-- The fields of a document supplied to `addDocument`
(`Omit<Document, 'id'>` in the source). -/
structure NewDocument where
  text : String
  embedding : List ℝ
  metadata : Metadata

/-- A search result of `VectorSearch.bruteForceSearch`
(`src/lib/storage.ts`, interface `SearchResult`), without the wall-clock
`processingTime` field. -/
structure SearchResult where
  document : Document
  similarity : ℝ

/-- The document projection returned by the search route
(`src/app/api/search/route.ts` lines 36–40): the embedding is omitted from
the response. -/
structure RouteDocument where
  id : String
  text : String
  metadata : Metadata
deriving DecidableEq, Repr

/-- A result entry produced by the search route.  The similarity is an
`Option ℝ`: `none` models the JS `NaN` produced when the query embedding is
strictly longer than the document embedding (out-of-bounds `vecB[i]`). -/
structure RouteSearchResult where
  document : RouteDocument
  similarity : Option ℝ

/-- Error kinds surfaced by the boundary: `validationError` models the
HTTP 400 responses of the route handlers, `dimensionMismatch` models the
`Error('Vectors must have the same dimensions')` thrown by
`EmbeddingService.cosineSimilarity`. -/
inductive SearchError where
  | dimensionMismatch
  | validationError
deriving DecidableEq, Repr

/-- Aggregate statistics (`JSONStorage.getStats`). -/
structure CorpusStats where
  totalDocuments : Nat
  totalVectors : Nat
  averageTextLength : ℝ
  categories : List String

/-- What `JSON.parse` of the persisted file can yield: a JavaScript array of
document records, or some other well-formed JSON value (object, number,
string, …) that is *not* a document array.  The source
(`JSONStorage.getAllDocuments`) performs no shape validation on the parsed
value. -/
inductive StoredValue where
  | docArray (documents : List Document)
  | otherJson

/-- The outcome of `fs.readFileSync` followed by `JSON.parse` on the
persisted collection — the external filesystem and JSON builtins, modelled
as an input: `ioError` (file missing or unreadable, `readFileSync` throws),
`parseError` (content is not valid JSON, `JSON.parse` throws), or a parsed
JSON value. -/
inductive JsonReadResult where
  | ioError
  | parseError
  | value (v : StoredValue)

/-- The `embedding` field of an ingestion request body as JavaScript sees
it: absent (or `null`), present but not an array (fails
`Array.isArray`), or an array of numbers. -/
inductive JsEmbeddingField where
  | absent
  | nonArray
  | arr (xs : List ℝ)

/-- JavaScript `list.slice(0, e)` (ECMAScript `Array.prototype.slice` with
start `0`): a negative end index counts from the end of the list, a
non-negative end index truncates. -/
def jsSlice0 {α : Type} (l : List α) (e : Int) : List α :=
  if e < 0 then l.take (l.length - (-e).toNat) else l.take e.toNat

/-- First-occurrence deduplication with an accumulator of already-seen
elements; models iterating a JS `Set` built from a list (`new Set(l)`
preserves first-insertion order). -/
def jsSetDedupAux (seen : List String) : List String → List String
  | [] => []
  | x :: xs => if x ∈ seen then jsSetDedupAux seen xs else x :: jsSetDedupAux (x :: seen) xs

/-- `[...new Set(l)]` in JavaScript: distinct elements of `l` in order of
first occurrence. -/
def jsSetDedup (l : List String) : List String :=
  jsSetDedupAux [] l

/-- Dot product as computed by both cosine-similarity implementations:
`vecA.reduce((sum, a, i) => sum + a * vecB[i], 0)`.  `zipWith` truncates at
the shorter list, which agrees with the source whenever
`vecA.length ≤ vecB.length`; the remaining case (where JS produces `NaN`)
is handled explicitly by the callers. -/
def jsDot (a b : List ℝ) : ℝ :=
  (List.zipWith (· * ·) a b).sum

/-- Sum of squares of a vector: `vec.reduce((sum, x) => sum + x * x, 0)`. -/
def sqSum (a : List ℝ) : ℝ :=
  (a.map fun x => x * x).sum

/-- Magnitude `Math.sqrt(vec.reduce((sum, x) => sum + x * x, 0))`. -/
noncomputable def jsMagnitude (a : List ℝ) : ℝ :=
  Real.sqrt (sqSum a)

/-- `Math.max(-1, Math.min(1, x))`. -/
noncomputable def clamp1 (x : ℝ) : ℝ :=
  max (-1) (min 1 x)

namespace EmbeddingService

/-- The value computed by `EmbeddingService.cosineSimilarity` after its
dimension check has passed (`src/lib/embedding.ts`): zero-magnitude guard,
then `dot / (|a|·|b|)` clamped to `[-1, 1]`. -/
noncomputable def cosSimVal (vecA vecB : List ℝ) : ℝ :=
  if jsMagnitude vecA = 0 ∨ jsMagnitude vecB = 0 then 0
  else clamp1 (jsDot vecA vecB / (jsMagnitude vecA * jsMagnitude vecB))

/-- `EmbeddingService.cosineSimilarity` (`src/lib/embedding.ts`): throws
`Error('Vectors must have the same dimensions')` when the lengths differ,
otherwise returns the guarded, clamped cosine. -/
noncomputable def cosineSimilarity (vecA vecB : List ℝ) : Except SearchError ℝ :=
  if vecA.length ≠ vecB.length then .error .dimensionMismatch
  else .ok (cosSimVal vecA vecB)

end EmbeddingService

namespace SearchRoute

/-- The route-local `cosineSimilarity` of `src/app/api/search/route.ts`
(lines 6–13).  It performs **no** length check and **no** clamp.  In JS the
dot product reads `vecB[i]` for every index `i` of `vecA`; when `vecA` is
strictly longer than `vecB` this is `undefined` and the dot product (hence
the returned quotient) is `NaN`, modelled as `none` — except that the
zero-magnitude guard runs first and returns `0` before the division. -/
noncomputable def cosineSimilarity (vecA vecB : List ℝ) : Option ℝ :=
  if jsMagnitude vecA = 0 ∨ jsMagnitude vecB = 0 then some 0
  else if vecB.length < vecA.length then none
  else some (jsDot vecA vecB / (jsMagnitude vecA * jsMagnitude vecB))

/-- The response projection of a stored document (embedding omitted). -/
def routeDocOf (d : Document) : RouteDocument :=
  ⟨d.id, d.text, d.metadata⟩

/-- The order realised by `results.sort((a, b) => b.similarity - a.similarity)`
on index-annotated results.  A comparator value of `NaN` is treated as `±0`
by ECMAScript `SortCompare`, i.e. as a tie, so any pair involving a `NaN`
similarity compares as equal and the stable sort keeps its original order
(for such inputs the comparator is inconsistent and ECMAScript leaves the
permutation implementation-defined; this model fixes one valid choice). -/
def routeRankRel (x y : Nat × RouteSearchResult) : Prop :=
  match x.2.similarity, y.2.similarity with
  | some a, some b => b < a ∨ (b = a ∧ x.1 ≤ y.1)
  | _, _ => x.1 ≤ y.1

noncomputable instance : DecidableRel routeRankRel := fun x y => by
  unfold routeRankRel
  rcases x.2.similarity with _ | a <;> rcases y.2.similarity with _ | b <;>
    exact inferInstance

/-- The scoring pass of the search route `POST` handler
(`src/app/api/search/route.ts` lines 33–44): every document is mapped to a
result; nothing is skipped and nothing can throw. -/
noncomputable def scoreAll (queryEmbedding : List ℝ) (documents : List Document) :
    List RouteSearchResult :=
  documents.map fun document =>
    ⟨routeDocOf document, cosineSimilarity queryEmbedding document.embedding⟩

/-- The search route `POST` handler after input validation
(`src/app/api/search/route.ts` lines 29–49): score every document, sort by
descending similarity with the ECMAScript stable sort, `slice(0, limit)`. -/
noncomputable def search (queryEmbedding : List ℝ) (documents : List Document)
    (limit : Int) : List RouteSearchResult :=
  jsSlice0 (((scoreAll queryEmbedding documents).enum.insertionSort routeRankRel).map
    Prod.snd) limit

end SearchRoute

namespace VectorSearch

/-- The scoring loop of `VectorSearch.bruteForceSearch`
(`src/lib/search.ts` lines 35–42): each document is scored through
`EmbeddingService.cosineSimilarity`, and the exception thrown at the first
dimension-mismatched document aborts the whole pass. -/
noncomputable def scoreAll (queryEmbedding : List ℝ) :
    List Document → Except SearchError (List SearchResult)
  | [] => .ok []
  | document :: rest =>
    match EmbeddingService.cosineSimilarity queryEmbedding document.embedding with
    | .error e => .error e
    | .ok similarity =>
      match scoreAll queryEmbedding rest with
      | .error e => .error e
      | .ok tail => .ok (⟨document, similarity⟩ :: tail)

/-- The order realised by `results.sort((a, b) => b.similarity - a.similarity)`
on index-annotated results: strictly greater similarity first, ties kept in
index order (the ECMAScript sort is stable). -/
def rankRel (x y : Nat × SearchResult) : Prop :=
  y.2.similarity < x.2.similarity ∨ (x.2.similarity = y.2.similarity ∧ x.1 ≤ y.1)

noncomputable instance : DecidableRel rankRel := fun x y => by
  unfold rankRel; exact inferInstance

instance : IsTotal (Nat × SearchResult) rankRel where
  total x y := by
    rcases lt_trichotomy x.2.similarity y.2.similarity with h | h | h
    · exact .inr (.inl h)
    · rcases Nat.le_total x.1 y.1 with h' | h'
      · exact .inl (.inr ⟨h, h'⟩)
      · exact .inr (.inr ⟨h.symm, h'⟩)
    · exact .inl (.inl h)

instance : IsTrans (Nat × SearchResult) rankRel where
  trans x y z hxy hyz := by
    rcases hxy with h1 | ⟨e1, i1⟩ <;> rcases hyz with h2 | ⟨e2, i2⟩
    · exact .inl (h2.trans h1)
    · exact .inl (e2 ▸ h1)
    · exact .inl (e1 ▸ h2)
    · exact .inr ⟨e1.trans e2, i1.trans i2⟩

/-- The ECMAScript stable sort of `results` by descending similarity,
realised as insertion sort over index-annotated results ordered
lexicographically by (similarity descending, original index ascending). -/
noncomputable def jsStableSortDesc (results : List SearchResult) : List SearchResult :=
  (results.enum.insertionSort rankRel).map Prod.snd

/-- `VectorSearch.bruteForceSearch` (`src/lib/search.ts` lines 31–47):
score every document (propagating the dimension-mismatch exception), sort
by descending similarity, `slice(0, limit)`. -/
noncomputable def bruteForceSearch (queryEmbedding : List ℝ) (documents : List Document)
    (limit : Int) : Except SearchError (List SearchResult) :=
  match scoreAll queryEmbedding documents with
  | .error e => .error e
  | .ok results => .ok (jsSlice0 (jsStableSortDesc results) limit)

end VectorSearch

namespace JSONStorage

/-- `JSONStorage.getAllDocuments` (`src/lib/storage.ts` lines 51–58):
`try { return JSON.parse(fs.readFileSync(...)) } catch { return [] }`.
A read or parse failure is caught and yields the empty array; a
successfully parsed value is returned **unvalidated**, whatever its
shape. -/
def getAllDocuments : JsonReadResult → StoredValue
  | .ioError => .docArray []
  | .parseError => .docArray []
  | .value v => v

/-- `JSONStorage.saveDocuments` (`src/lib/storage.ts` lines 60–62):
`fs.writeFileSync(path, JSON.stringify(documents))` — the persisted image
afterwards parses back to exactly the written document array. -/
def saveDocuments (documents : List Document) : JsonReadResult :=
  .value (.docArray documents)

/-- `JSONStorage.addDocument` (`src/lib/storage.ts` lines 39–49) on a
well-formed store snapshot: append a new document whose `id` is the
generated string `Date.now().toString() + Math.random().toString(36).substr(2, 9)`.
The generated string is an external input (`newId`); the source performs no
collision check against existing ids.  Returns the updated collection
(which the source then persists via `saveDocuments`) and the new document. -/
def addDocument (documents : List Document) (doc : NewDocument) (newId : String) :
    List Document × Document :=
  let newDoc : Document := ⟨newId, doc.text, doc.embedding, doc.metadata⟩
  (documents ++ [newDoc], newDoc)

/-- `JSONStorage.getStats` (`src/lib/storage.ts` lines 64–76) on a store
snapshot: document count, average text length guarded against division by
zero, and the distinct truthy categories
(`[...new Set(documents.map(d => d.metadata.category).filter(Boolean))]` —
`filter(Boolean)` drops both `undefined` and the empty string). -/
noncomputable def getStats (documents : List Document) : CorpusStats :=
  let totalDocs := documents.length
  { totalDocuments := totalDocs
    totalVectors := totalDocs
    averageTextLength :=
      if 0 < totalDocs then
        ((documents.map fun doc => (doc.text.length : ℝ)).sum) / (totalDocs : ℝ)
      else 0
    categories :=
      jsSetDedup (((documents.map fun doc => doc.metadata.category).filterMap id).filter
        fun c => c ≠ "") }

end JSONStorage

namespace DataRoute

/-- The ingestion `POST` handler of `src/app/api/data/route.ts`
(lines 26–48): reject a falsy `text` (absent or empty string), reject an
`embedding` that is absent or fails `Array.isArray`, otherwise add the
document and return it with refreshed stats.  The contents of an array
`embedding` are **not** validated (neither non-emptiness nor numeric
element type).  The second component of the result is the persisted
collection after the call (unchanged on a validation failure, since the
handler returns before touching the store). -/
noncomputable def POST (text : Option String) (category : Option String)
    (embedding : JsEmbeddingField) (store : List Document) (now : String)
    (newId : String) : Except SearchError (Document × CorpusStats) × List Document :=
  match text with
  | none => (.error .validationError, store)
  | some t =>
    if t = "" then (.error .validationError, store)
    else
      match embedding with
      | .arr xs =>
        let r := JSONStorage.addDocument store
          ⟨t, xs, ⟨now, category, t.length⟩⟩ newId
        (.ok (r.2, JSONStorage.getStats r.1), r.1)
      | _ => (.error .validationError, store)

end DataRoute

/-! ## Helper lemmas -/

theorem mem_jsSetDedupAux (seen l : List String) (c : String) :
    c ∈ jsSetDedupAux seen l ↔ c ∈ l ∧ c ∉ seen := by
  induction l generalizing seen with
  | nil => simp [jsSetDedupAux]
  | cons x xs ih =>
    by_cases hx : x ∈ seen
    · rw [jsSetDedupAux, if_pos hx, ih]
      constructor
      · rintro ⟨h1, h2⟩
        exact ⟨List.mem_cons_of_mem _ h1, h2⟩
      · rintro ⟨h1, h2⟩
        rcases List.mem_cons.1 h1 with rfl | h1
        · exact absurd hx h2
        · exact ⟨h1, h2⟩
    · rw [jsSetDedupAux, if_neg hx, List.mem_cons, ih]
      constructor
      · rintro (rfl | ⟨h1, h2⟩)
        · exact ⟨List.mem_cons_self _ _, hx⟩
        · exact ⟨List.mem_cons_of_mem _ h1,
            fun hc => h2 (List.mem_cons_of_mem _ hc)⟩
      · rintro ⟨h1, h2⟩
        rcases List.mem_cons.1 h1 with rfl | h1
        · exact .inl rfl
        · by_cases hcx : c = x
          · exact .inl hcx
          · exact .inr ⟨h1, by simp [List.mem_cons, hcx, h2]⟩

theorem nodup_jsSetDedupAux (seen l : List String) : (jsSetDedupAux seen l).Nodup := by
  induction l generalizing seen with
  | nil => simp [jsSetDedupAux]
  | cons x xs ih =>
    by_cases hx : x ∈ seen
    · rw [jsSetDedupAux, if_pos hx]
      exact ih seen
    · rw [jsSetDedupAux, if_neg hx]
      refine List.nodup_cons.2 ⟨fun hmem => ?_, ih (x :: seen)⟩
      exact ((mem_jsSetDedupAux _ _ _).1 hmem).2 (List.mem_cons_self x seen)

/-! ## C9 — aggregate statistics -/

/-- **C9.** On an empty corpus `getStats` returns `totalDocuments 0`,
`averageTextLength 0` (the count guard avoids the division) and an empty
category list; on any corpus the categories are exactly the distinct
non-empty category labels of the stored documents. -/
theorem getStats_empty_and_categories :
    JSONStorage.getStats [] = ⟨0, 0, 0, []⟩ ∧
    ∀ documents : List Document,
      (JSONStorage.getStats documents).categories.Nodup ∧
      ∀ c : String, c ∈ (JSONStorage.getStats documents).categories ↔
        (c ≠ "" ∧ ∃ d ∈ documents, d.metadata.category = some c) := by
  refine ⟨rfl, fun documents => ⟨nodup_jsSetDedupAux _ _, fun c => ?_⟩⟩
  simp only [JSONStorage.getStats, jsSetDedup, mem_jsSetDedupAux,
    List.mem_filter, List.mem_filterMap, List.mem_map, List.not_mem_nil,
    not_false_iff, and_true, id_eq, decide_eq_true_eq]
  constructor
  · rintro ⟨⟨a, ⟨d, hd, rfl⟩, ha⟩, hc⟩
    exact ⟨hc, d, hd, ha⟩
  · rintro ⟨hc, d, hd, ha⟩
    exact ⟨⟨d.metadata.category, ⟨d, hd, rfl⟩, ha⟩, hc⟩

/-! ## C3 — read-path recovery -/

/-- **C3, counterexample.** A persisted file whose content is valid JSON
but not a document array (for example the text `{}`) is "malformed content"
for the store, yet `getAllDocuments` returns the parsed value as-is rather
than the empty sequence: the source performs no shape validation after
`JSON.parse`. -/
theorem getAllDocuments_malformed_not_empty :
    JSONStorage.getAllDocuments (.value .otherJson) ≠ .docArray [] := by
  intro h
  exact StoredValue.noConfusion h

/-- **C3, amended.** `getAllDocuments` never raises on reads; it returns
the empty sequence exactly when the read throws (missing/unreadable file)
or the content is not valid JSON; content that parses as JSON is returned
unvalidated, whatever its shape. -/
theorem getAllDocuments_recovery_amended :
    JSONStorage.getAllDocuments .ioError = .docArray [] ∧
    JSONStorage.getAllDocuments .parseError = .docArray [] ∧
    ∀ v, JSONStorage.getAllDocuments (.value v) = v :=
  ⟨rfl, rfl, fun _ => rfl⟩

/-! ## C5 — dimension check of EmbeddingService.cosineSimilarity -/

/-- **C5.** `EmbeddingService.cosineSimilarity` fails with
`DimensionMismatch` exactly when the two vectors have different lengths,
and succeeds on any pair of equal-length vectors. -/
theorem cosineSimilarity_dimension_check (vecA vecB : List ℝ) :
    (vecA.length ≠ vecB.length →
      EmbeddingService.cosineSimilarity vecA vecB = .error .dimensionMismatch) ∧
    (vecA.length = vecB.length →
      ∃ r, EmbeddingService.cosineSimilarity vecA vecB = .ok r) := by
  unfold EmbeddingService.cosineSimilarity
  constructor
  · intro h
    rw [if_pos h]
  · intro h
    rw [if_neg (by simp [h])]
    exact ⟨_, rfl⟩

/-- Witness for C5 at concrete inputs: a length-2/length-1 pair is rejected
with the dimension error, a length-2/length-2 pair succeeds. -/
theorem cosineSimilarity_dimension_check_witness :
    ([1, 2] : List ℝ).length ≠ ([1] : List ℝ).length ∧
    EmbeddingService.cosineSimilarity [1, 2] [1] = .error .dimensionMismatch ∧
    ∃ r, EmbeddingService.cosineSimilarity [0, 1] [1, 0] = .ok r :=
  ⟨by simp, (cosineSimilarity_dimension_check [1, 2] [1]).1 (by simp),
    (cosineSimilarity_dimension_check [0, 1] [1, 0]).2 (by simp)⟩

/-! ## C7 — ingestion validation -/

/-- **C7, counterexample.** An ingestion request whose `embedding` is the
empty array (hence not a *non-empty* numeric sequence) is **accepted**: the
route only checks `Array.isArray`, a document is persisted, and
`getStats().totalDocuments` grows from 0 to 1. -/
theorem ingest_empty_embedding_accepted :
    (DataRoute.POST (some "x") none (.arr []) [] "t0" "id0").1 ≠
      .error SearchError.validationError ∧
    (JSONStorage.getStats (DataRoute.POST (some "x") none (.arr []) [] "t0" "id0").2).totalDocuments ≠
      (JSONStorage.getStats []).totalDocuments := by
  constructor
  · intro h
    rw [show (DataRoute.POST (some "x") none (.arr []) [] "t0" "id0").1 =
        .ok (⟨"id0", "x", [], ⟨"t0", none, 1⟩⟩,
          JSONStorage.getStats [⟨"id0", "x", [], ⟨"t0", none, 1⟩⟩]) from rfl] at h
    exact Except.noConfusion h
  · intro h
    rw [show (JSONStorage.getStats
        (DataRoute.POST (some "x") none (.arr []) [] "t0" "id0").2).totalDocuments = 1 from rfl,
      show (JSONStorage.getStats ([] : List Document)).totalDocuments = 0 from rfl] at h
    exact Nat.noConfusion h

/-- **C7, amended.** The ingestion route rejects with `ValidationError`
exactly the requests whose `text` is missing or empty or whose `embedding`
is missing or not an array; in those cases nothing is persisted and
`getStats().totalDocuments` is unchanged.  The *contents* of an array
`embedding` are not validated: in particular the empty array is accepted
and a document is persisted (see the counterexample). -/
theorem ingest_validation_amended (text category : Option String)
    (embedding : JsEmbeddingField) (store : List Document) (now newId : String)
    (hbad : text = none ∨ text = some "" ∨
      embedding = .absent ∨ embedding = .nonArray) :
    (DataRoute.POST text category embedding store now newId).1 =
      .error .validationError ∧
    (DataRoute.POST text category embedding store now newId).2 = store ∧
    (JSONStorage.getStats
        (DataRoute.POST text category embedding store now newId).2).totalDocuments =
      (JSONStorage.getStats store).totalDocuments := by
  have hout : (DataRoute.POST text category embedding store now newId) =
      (.error .validationError, store) := by
    rcases hbad with rfl | rfl | rfl | rfl
    · rfl
    · rfl
    · cases text with
      | none => rfl
      | some t =>
        by_cases ht : t = ""
        · simp [DataRoute.POST, ht]
        · simp [DataRoute.POST, ht]
    · cases text with
      | none => rfl
      | some t =>
        by_cases ht : t = ""
        · simp [DataRoute.POST, ht]
        · simp [DataRoute.POST, ht]
  rw [hout]
  exact ⟨rfl, rfl, rfl⟩

/-- Witness for the amended C7: a request with an empty `text` is rejected
and the store (here one concrete document) is untouched. -/
theorem ingest_validation_amended_witness :
    (DataRoute.POST (some "") none (.arr [1])
        [⟨"a", "t", [1], ⟨"t0", none, 1⟩⟩] "t1" "id1").1 =
      .error .validationError ∧
    (DataRoute.POST (some "") none (.arr [1])
        [⟨"a", "t", [1], ⟨"t0", none, 1⟩⟩] "t1" "id1").2 =
      [⟨"a", "t", [1], ⟨"t0", none, 1⟩⟩] ∧
    (JSONStorage.getStats (DataRoute.POST (some "") none (.arr [1])
        [⟨"a", "t", [1], ⟨"t0", none, 1⟩⟩] "t1" "id1").2).totalDocuments =
      (JSONStorage.getStats [⟨"a", "t", [1], ⟨"t0", none, 1⟩⟩]).totalDocuments :=
  ingest_validation_amended (some "") none (.arr [1]) _ "t1" "id1" (.inr (.inl rfl))

/-! ## C8 — addDocument round trip -/

/-- **C8, counterexample.** The id generator (`Date.now()` plus a random
suffix) is an external input and the source performs no collision check:
when the freshly generated string coincides with an id already stored, the
new document is persisted with a duplicate id, so the round trip does *not*
yield an id distinct from every existing id. -/
theorem addDocument_id_collision :
    ((JSONStorage.addDocument [⟨"1700000000000abc123de", "old", [1], ⟨"t0", none, 3⟩⟩]
        ⟨"new", [2], ⟨"t1", none, 3⟩⟩ "1700000000000abc123de").1.map Document.id) =
      ["1700000000000abc123de", "1700000000000abc123de"] ∧
    ¬ ((JSONStorage.addDocument [⟨"1700000000000abc123de", "old", [1], ⟨"t0", none, 3⟩⟩]
        ⟨"new", [2], ⟨"t1", none, 3⟩⟩ "1700000000000abc123de").1.map Document.id).Nodup := by
  refine ⟨rfl, ?_⟩
  rw [show ((JSONStorage.addDocument
      [⟨"1700000000000abc123de", "old", [1], ⟨"t0", none, 3⟩⟩]
      ⟨"new", [2], ⟨"t1", none, 3⟩⟩ "1700000000000abc123de").1.map Document.id) =
      ["1700000000000abc123de", "1700000000000abc123de"] from rfl]
  simp

/-- **C8, amended.** `addDocument(t, e, m)` followed by `getAllDocuments()`
yields the old sequence with exactly one new entry appended, whose `text`
is `t`, whose `embedding` is `e` and whose `id` is the generated string;
the new id is distinct from every existing id *provided* the generated
string differs from all stored ids — the code itself performs no collision
check (see the counterexample). -/
theorem addDocument_roundtrip_amended (store : List Document) (doc : NewDocument)
    (newId : String) :
    JSONStorage.getAllDocuments (JSONStorage.saveDocuments
        (JSONStorage.addDocument store doc newId).1) =
      .docArray (store ++ [(JSONStorage.addDocument store doc newId).2]) ∧
    (JSONStorage.addDocument store doc newId).2.text = doc.text ∧
    (JSONStorage.addDocument store doc newId).2.embedding = doc.embedding ∧
    (JSONStorage.addDocument store doc newId).2.id = newId ∧
    (newId ∉ store.map Document.id →
      ∀ d ∈ store, d.id ≠ (JSONStorage.addDocument store doc newId).2.id) := by
  refine ⟨rfl, rfl, rfl, rfl, fun hfresh d hd heq => ?_⟩
  exact hfresh (List.mem_map.2 ⟨d, hd, heq⟩)

/-- Witness for the amended C8 on an empty store with a concrete document:
the appended entry carries the requested text, embedding and id, and the
freshness implication applies. -/
theorem addDocument_roundtrip_amended_witness :
    (JSONStorage.addDocument [] ⟨"t", [1], ⟨"t0", none, 1⟩⟩ "id0").2.id = "id0" ∧
    ∀ d ∈ ([] : List Document),
      d.id ≠ (JSONStorage.addDocument [] ⟨"t", [1], ⟨"t0", none, 1⟩⟩ "id0").2.id :=
  ⟨(addDocument_roundtrip_amended [] ⟨"t", [1], ⟨"t0", none, 1⟩⟩ "id0").2.2.2.1,
    (addDocument_roundtrip_amended [] ⟨"t", [1], ⟨"t0", none, 1⟩⟩ "id0").2.2.2.2
      (by simp)⟩

/-! ## Search helper lemmas -/

theorem VectorSearch.scoreAll_ok_of_wf (q : List ℝ) (docs : List Document)
    (hwf : ∀ d ∈ docs, q.length = d.embedding.length) :
    VectorSearch.scoreAll q docs =
      .ok (docs.map fun d => ⟨d, EmbeddingService.cosSimVal q d.embedding⟩) := by
  induction docs with
  | nil => rfl
  | cons d rest ih =>
    have hd : ¬ q.length ≠ d.embedding.length :=
      not_not_intro (hwf d (List.mem_cons_self _ _))
    have hrest := ih fun d' hd' => hwf d' (List.mem_cons_of_mem _ hd')
    rw [VectorSearch.scoreAll, EmbeddingService.cosineSimilarity, if_neg hd, hrest]
    rfl

theorem VectorSearch.scoreAll_error_of_mismatch (q : List ℝ) (docs : List Document)
    (hbad : ∃ d ∈ docs, q.length ≠ d.embedding.length) :
    VectorSearch.scoreAll q docs = .error .dimensionMismatch := by
  induction docs with
  | nil => simp at hbad
  | cons d rest ih =>
    rcases hbad with ⟨d', hd', hne⟩
    rcases List.mem_cons.1 hd' with rfl | hmem
    · rw [VectorSearch.scoreAll, EmbeddingService.cosineSimilarity, if_pos hne]
    · by_cases hd : q.length ≠ d.embedding.length
      · rw [VectorSearch.scoreAll, EmbeddingService.cosineSimilarity, if_pos hd]
      · rw [VectorSearch.scoreAll, EmbeddingService.cosineSimilarity, if_neg hd,
          ih ⟨d', hmem, hne⟩]

theorem VectorSearch.scoreAll_wf_of_ok (q : List ℝ) (docs : List Document)
    (res : List SearchResult) (h : VectorSearch.scoreAll q docs = .ok res) :
    ∀ d ∈ docs, q.length = d.embedding.length := by
  intro d hd
  by_contra hne
  rw [VectorSearch.scoreAll_error_of_mismatch q docs ⟨d, hd, hne⟩] at h
  exact Except.noConfusion h

theorem VectorSearch.scoreAll_ok_inv (q : List ℝ) (docs : List Document)
    (res : List SearchResult) (h : VectorSearch.scoreAll q docs = .ok res) :
    res = docs.map fun d => ⟨d, EmbeddingService.cosSimVal q d.embedding⟩ := by
  rw [VectorSearch.scoreAll_ok_of_wf q docs
    (VectorSearch.scoreAll_wf_of_ok q docs res h)] at h
  exact (Except.ok.inj h).symm

theorem VectorSearch.length_jsStableSortDesc (results : List SearchResult) :
    (VectorSearch.jsStableSortDesc results).length = results.length := by
  unfold VectorSearch.jsStableSortDesc
  rw [List.length_map, (List.perm_insertionSort _ _).length_eq, List.enum_length]

theorem length_jsSlice0_nonpos {α : Type} (l : List α) (e : Int) (he : e ≤ 0) :
    (jsSlice0 l e).length =
      if e = 0 then 0 else ((l.length : Int) + e).toNat := by
  rcases lt_or_eq_of_le he with hlt | heq
  · have hk : ((-e).toNat : Int) = -e := Int.toNat_of_nonneg (by omega)
    rw [jsSlice0, if_pos hlt, if_neg (by omega), List.length_take,
      Nat.min_eq_left (Nat.sub_le _ _)]
    have : ((l.length : Int) + e) = (l.length : Int) - ((-e).toNat : Int) := by
      rw [hk]; ring
    rw [this, Int.toNat_sub]
  · subst heq
    rw [jsSlice0, if_neg (by omega), if_pos rfl]
    simp

/-! ## C6 — non-positive limit handling -/

/-- **C6, counterexample.** A search with `limit = 0` over a one-document
corpus is **not** rejected: `bruteForceSearch` returns the empty result
list (and so does the search route), because `slice(0, 0)` silently
produces the empty array. -/
theorem search_limit_zero_not_rejected :
    VectorSearch.bruteForceSearch [1] [⟨"1", "a", [1], ⟨"t0", none, 1⟩⟩] 0 = .ok [] ∧
    VectorSearch.bruteForceSearch [1] [⟨"1", "a", [1], ⟨"t0", none, 1⟩⟩] 0 ≠
      .error SearchError.validationError ∧
    SearchRoute.search [1] [⟨"1", "a", [1], ⟨"t0", none, 1⟩⟩] 0 = [] := by
  have h1 : VectorSearch.bruteForceSearch [1] [⟨"1", "a", [1], ⟨"t0", none, 1⟩⟩] 0 =
      .ok [] := by
    unfold VectorSearch.bruteForceSearch
    rw [VectorSearch.scoreAll_ok_of_wf _ _ (by simp)]
    simp [jsSlice0]
  refine ⟨h1, by simp [h1], ?_⟩
  unfold SearchRoute.search
  simp [jsSlice0]

/-- **C6, amended.** Neither search path validates the limit: with
`limit = 0` the result list is empty, and with a negative limit the ranked
list loses its last `|limit|` elements (JavaScript `slice` semantics); no
`ValidationError` is raised. -/
theorem search_nonpositive_limit_amended (q : List ℝ) (docs : List Document)
    (lim : Int) (hlim : lim ≤ 0)
    (hwf : ∀ d ∈ docs, q.length = d.embedding.length) :
    (∃ res, VectorSearch.bruteForceSearch q docs lim = .ok res ∧
      res.length = if lim = 0 then 0 else ((docs.length : Int) + lim).toNat) ∧
    (SearchRoute.search q docs lim).length =
      (if lim = 0 then 0 else ((docs.length : Int) + lim).toNat) := by
  constructor
  · have h1 : VectorSearch.bruteForceSearch q docs lim =
        .ok (jsSlice0 (VectorSearch.jsStableSortDesc
          (docs.map fun d => ⟨d, EmbeddingService.cosSimVal q d.embedding⟩)) lim) := by
      unfold VectorSearch.bruteForceSearch
      rw [VectorSearch.scoreAll_ok_of_wf q docs hwf]
    refine ⟨_, h1, ?_⟩
    rw [length_jsSlice0_nonpos _ _ hlim, VectorSearch.length_jsStableSortDesc,
      List.length_map]
  · unfold SearchRoute.search
    rw [length_jsSlice0_nonpos _ _ hlim, List.length_map,
      (List.perm_insertionSort _ _).length_eq, List.enum_length,
      SearchRoute.scoreAll, List.length_map]

/-- Witness for the amended C6: a negative limit (`-1`) over a concrete
two-document corpus yields one result instead of an error. -/
theorem search_nonpositive_limit_amended_witness :
    (-1 : Int) ≤ 0 ∧
    (∃ res, VectorSearch.bruteForceSearch [1]
        [⟨"1", "a", [2], ⟨"t0", none, 1⟩⟩, ⟨"2", "b", [3], ⟨"t0", none, 1⟩⟩] (-1) =
          .ok res ∧
      res.length = if (-1 : Int) = 0 then 0 else ((2 : Int) + (-1)).toNat) :=
  ⟨by norm_num,
    (search_nonpositive_limit_amended [1]
      [⟨"1", "a", [2], ⟨"t0", none, 1⟩⟩, ⟨"2", "b", [3], ⟨"t0", none, 1⟩⟩]
      (-1) (by norm_num) (by simp)).1⟩

/-! ## Vector-math lemmas -/

theorem sqSum_nonneg (a : List ℝ) : 0 ≤ sqSum a := by
  refine List.sum_nonneg fun x hx => ?_
  rcases List.mem_map.1 hx with ⟨y, _, rfl⟩
  exact mul_self_nonneg y

theorem list_sum_eq_range_sum (l : List ℝ) :
    l.sum = ∑ i ∈ Finset.range l.length, l.getD i 0 := by
  induction l with
  | nil => simp
  | cons x xs ih =>
    simp only [List.sum_cons, List.length_cons, Finset.sum_range_succ',
      List.getD_cons_succ, List.getD_cons_zero, ih]
    exact add_comm x _

theorem sqSum_eq_range (a : List ℝ) :
    sqSum a = ∑ i ∈ Finset.range a.length, a.getD i 0 * a.getD i 0 := by
  rw [sqSum, list_sum_eq_range_sum, List.length_map]
  refine Finset.sum_congr rfl fun i hi => ?_
  have hi' : i < a.length := Finset.mem_range.1 hi
  rw [List.getD_eq_getElem _ _ (by simpa using hi'), List.getElem_map,
    List.getD_eq_getElem _ _ hi']

theorem jsDot_eq_range (a b : List ℝ) (h : a.length = b.length) :
    jsDot a b = ∑ i ∈ Finset.range a.length, a.getD i 0 * b.getD i 0 := by
  have hlen : (List.zipWith (· * ·) a b).length = a.length := by
    rw [List.length_zipWith, h, Nat.min_self]
  rw [jsDot, list_sum_eq_range_sum, hlen]
  refine Finset.sum_congr rfl fun i hi => ?_
  have hi' : i < a.length := Finset.mem_range.1 hi
  rw [List.getD_eq_getElem _ _ (show i < (List.zipWith (· * ·) a b).length from
      hlen ▸ hi'), List.getElem_zipWith,
    List.getD_eq_getElem _ _ hi', List.getD_eq_getElem _ _ (h ▸ hi')]

theorem jsDot_sq_le (a b : List ℝ) (h : a.length = b.length) :
    jsDot a b ^ 2 ≤ sqSum a * sqSum b := by
  rw [jsDot_eq_range a b h, sqSum_eq_range, sqSum_eq_range]
  have hcs := Finset.sum_mul_sq_le_sq_mul_sq (Finset.range a.length)
    (fun i => a.getD i 0) (fun i => b.getD i 0)
  simpa only [pow_two, ← h] using hcs

theorem abs_jsDot_le (a b : List ℝ) (h : a.length = b.length) :
    |jsDot a b| ≤ jsMagnitude a * jsMagnitude b := by
  rw [(Real.sqrt_sq_eq_abs (jsDot a b)).symm, jsMagnitude, jsMagnitude,
    ← Real.sqrt_mul (sqSum_nonneg a)]
  exact Real.sqrt_le_sqrt (jsDot_sq_le a b h)

/-! ## C4 — cosine similarity value -/

/-- **C4.** For equal-length vectors `EmbeddingService.cosineSimilarity`
succeeds with the clamped cosine `dot / (|a|·|b|)`, returns `0` whenever a
magnitude is exactly zero, and always lies in `[-1, 1]`; the route-local
implementation returns the same (numeric, never `NaN`) value on such
inputs — its missing clamp is harmless over the reals because
Cauchy–Schwarz already bounds the quotient. -/
theorem cosineSimilarity_value_spec (a b : List ℝ) (h : a.length = b.length) :
    ∃ r, EmbeddingService.cosineSimilarity a b = .ok r ∧
      r = clamp1 (jsDot a b / (jsMagnitude a * jsMagnitude b)) ∧
      ((jsMagnitude a = 0 ∨ jsMagnitude b = 0) → r = 0) ∧
      -1 ≤ r ∧ r ≤ 1 ∧
      SearchRoute.cosineSimilarity a b = some r := by
  have hok : EmbeddingService.cosineSimilarity a b =
      .ok (EmbeddingService.cosSimVal a b) := by
    rw [EmbeddingService.cosineSimilarity, if_neg (not_not_intro h)]
  refine ⟨EmbeddingService.cosSimVal a b, hok, ?_⟩
  by_cases hz : jsMagnitude a = 0 ∨ jsMagnitude b = 0
  · have hv : EmbeddingService.cosSimVal a b = 0 := by
      rw [EmbeddingService.cosSimVal, if_pos hz]
    have hden : jsMagnitude a * jsMagnitude b = 0 := by
      rcases hz with h0 | h0 <;> simp [h0]
    refine ⟨?_, fun _ => hv, ?_, ?_, ?_⟩
    · rw [hv, hden, div_zero, clamp1]
      norm_num
    · rw [hv]; norm_num
    · rw [hv]; norm_num
    · rw [SearchRoute.cosineSimilarity, if_pos hz, hv]
  · push_neg at hz
    obtain ⟨ha, hb⟩ := hz
    have hden : 0 < jsMagnitude a * jsMagnitude b :=
      mul_pos (lt_of_le_of_ne (Real.sqrt_nonneg _) (Ne.symm ha))
        (lt_of_le_of_ne (Real.sqrt_nonneg _) (Ne.symm hb))
    have habs : |jsDot a b / (jsMagnitude a * jsMagnitude b)| ≤ 1 := by
      rw [abs_div, abs_of_pos hden]
      exact div_le_one_of_le₀ (abs_jsDot_le a b h) hden.le
    obtain ⟨hlow, hhigh⟩ := abs_le.1 habs
    have hclamp : clamp1 (jsDot a b / (jsMagnitude a * jsMagnitude b)) =
        jsDot a b / (jsMagnitude a * jsMagnitude b) := by
      rw [clamp1, min_eq_right hhigh, max_eq_right hlow]
    have hv : EmbeddingService.cosSimVal a b =
        clamp1 (jsDot a b / (jsMagnitude a * jsMagnitude b)) := by
      rw [EmbeddingService.cosSimVal, if_neg (by push_neg; exact ⟨ha, hb⟩)]
    refine ⟨hv, fun hc => absurd hc (by push_neg; exact ⟨ha, hb⟩), ?_, ?_, ?_⟩
    · rw [hv, hclamp]; exact hlow
    · rw [hv, hclamp]; exact hhigh
    · rw [SearchRoute.cosineSimilarity, if_neg (by push_neg; exact ⟨ha, hb⟩),
        if_neg (show ¬ b.length < a.length by omega), hv, hclamp]

/-- Witness for C4 at the concrete orthogonal pair `[1, 0]`, `[0, 1]`. -/
theorem cosineSimilarity_value_spec_witness :
    ([1, 0] : List ℝ).length = ([0, 1] : List ℝ).length ∧
    ∃ r, EmbeddingService.cosineSimilarity [1, 0] [0, 1] = .ok r ∧
      r = clamp1 (jsDot [1, 0] [0, 1] / (jsMagnitude [1, 0] * jsMagnitude [0, 1])) ∧
      ((jsMagnitude [1, 0] = 0 ∨ jsMagnitude [0, 1] = 0) → r = 0) ∧
      -1 ≤ r ∧ r ≤ 1 ∧
      SearchRoute.cosineSimilarity [1, 0] [0, 1] = some r :=
  ⟨rfl, cosineSimilarity_value_spec [1, 0] [0, 1] rfl⟩

/-! ## C1 — ranking of bruteForceSearch -/

theorem VectorSearch.bruteForceSearch_ok_iff (q : List ℝ) (corpus : List Document)
    (limit : Int) (res' : List SearchResult) :
    VectorSearch.bruteForceSearch q corpus limit = .ok res' ↔
    ∃ results, VectorSearch.scoreAll q corpus = .ok results ∧
      res' = jsSlice0 (VectorSearch.jsStableSortDesc results) limit := by
  unfold VectorSearch.bruteForceSearch
  cases h : VectorSearch.scoreAll q corpus with
  | error e => simp
  | ok results => simp [eq_comm]

/-- **C1.** Whenever `bruteForceSearch` succeeds with a positive `limit`,
the result list has at most `limit` entries; every entry is a corpus
document (at position `pos i`) paired with its cosine similarity to the
query; similarities are non-increasing along the result list; and entries
with equal similarity appear in strictly increasing corpus order (the JS
sort is stable). -/
theorem bruteForceSearch_sorted_spec (q : List ℝ) (corpus : List Document)
    (limit : Int) (res : List SearchResult) (hlim : 0 < limit)
    (hok : VectorSearch.bruteForceSearch q corpus limit = .ok res) :
    res.length ≤ limit.toNat ∧
    ∃ pos : ℕ → ℕ, ∀ i : ℕ, ∀ hi : i < res.length,
      corpus.get? (pos i) = some (res.get ⟨i, hi⟩).document ∧
      (res.get ⟨i, hi⟩).similarity =
        EmbeddingService.cosSimVal q ((res.get ⟨i, hi⟩).document).embedding ∧
      ∀ j : ℕ, ∀ hj : j < res.length, i < j →
        (res.get ⟨j, hj⟩).similarity ≤ (res.get ⟨i, hi⟩).similarity ∧
        ((res.get ⟨i, hi⟩).similarity = (res.get ⟨j, hj⟩).similarity →
          pos i < pos j) := by
  rcases (VectorSearch.bruteForceSearch_ok_iff q corpus limit res).1 hok with
    ⟨results, hscore, hres⟩
  have hresults : results = corpus.map
      (fun d => ⟨d, EmbeddingService.cosSimVal q d.embedding⟩) :=
    VectorSearch.scoreAll_ok_inv q corpus results hscore
  have hperm : (results.enum.insertionSort VectorSearch.rankRel).Perm results.enum :=
    List.perm_insertionSort _ _
  have hpair : (results.enum.insertionSort VectorSearch.rankRel).Pairwise
      VectorSearch.rankRel :=
    List.sorted_insertionSort _ _
  have hres' : res = ((results.enum.insertionSort VectorSearch.rankRel).take
      limit.toNat).map Prod.snd := by
    rw [hres, jsSlice0, if_neg (by omega), VectorSearch.jsStableSortDesc,
      ← List.map_take]
  set T : List (ℕ × SearchResult) :=
    (results.enum.insertionSort VectorSearch.rankRel).take limit.toNat with hT
  have hpairT : T.Pairwise VectorSearch.rankRel := hpair.sublist (List.take_sublist _ _)
  have hnodup : (T.map Prod.fst).Nodup := by
    have h1 : (results.enum.map Prod.fst).Nodup := by
      rw [List.enum_map_fst]
      exact List.nodup_range _
    have h2 : ((results.enum.insertionSort VectorSearch.rankRel).map Prod.fst).Nodup :=
      ((hperm.map Prod.fst).nodup_iff).2 h1
    exact h2.sublist ((List.take_sublist _ _).map Prod.fst)
  have hmemT : ∀ p ∈ T, results.get? p.1 = some p.2 := by
    intro p hp
    have hp2 : p ∈ results.enum := hperm.mem_iff.1 (List.take_subset _ _ hp)
    rw [List.get?_eq_getElem?]
    exact List.mem_enum_iff_getElem?.1 hp2
  have hcorpus : ∀ n sr, results.get? n = some sr →
      corpus.get? n = some sr.document ∧
      sr.similarity = EmbeddingService.cosSimVal q sr.document.embedding := by
    intro n sr hsr
    rw [hresults, List.get?_eq_getElem?, List.getElem?_map] at hsr
    rcases Option.map_eq_some'.1 hsr with ⟨d, hd, rfl⟩
    exact ⟨by rw [List.get?_eq_getElem?, hd], rfl⟩
  subst hres'
  constructor
  · rw [List.length_map, List.length_take]
    exact Nat.min_le_left _ _
  · refine ⟨fun i => if h : i < T.length then (T.get ⟨i, h⟩).1 else 0, ?_⟩
    intro i hi
    have hiT : i < T.length := by rwa [List.length_map] at hi
    have hgeti : (T.map Prod.snd).get ⟨i, hi⟩ = (T.get ⟨i, hiT⟩).2 := by
      simp [List.get_eq_getElem, List.getElem_map]
    have hmem_i : results.get? (T.get ⟨i, hiT⟩).1 = some (T.get ⟨i, hiT⟩).2 := by
      refine hmemT _ ?_
      rw [List.get_eq_getElem]
      exact List.getElem_mem _
    obtain ⟨hdoc_i, hsim_i⟩ := hcorpus _ _ hmem_i
    refine ⟨?_, ?_, ?_⟩
    · simp only [dif_pos hiT, hgeti]
      exact hdoc_i
    · rw [hgeti]
      exact hsim_i
    · intro j hj hij
      have hjT : j < T.length := by rwa [List.length_map] at hj
      have hgetj : (T.map Prod.snd).get ⟨j, hj⟩ = (T.get ⟨j, hjT⟩).2 := by
        simp [List.get_eq_getElem, List.getElem_map]
      have hrel : VectorSearch.rankRel (T.get ⟨i, hiT⟩) (T.get ⟨j, hjT⟩) :=
        List.pairwise_iff_get.1 hpairT ⟨i, hiT⟩ ⟨j, hjT⟩ hij
      have hfst_ne : (T.get ⟨i, hiT⟩).1 ≠ (T.get ⟨j, hjT⟩).1 := by
        intro hfst
        have hmap_i : (T.map Prod.fst).get ⟨i, by rwa [List.length_map]⟩ =
            (T.get ⟨i, hiT⟩).1 := by
          simp [List.get_eq_getElem, List.getElem_map]
        have hmap_j : (T.map Prod.fst).get ⟨j, by rwa [List.length_map]⟩ =
            (T.get ⟨j, hjT⟩).1 := by
          simp [List.get_eq_getElem, List.getElem_map]
        have hfin : (⟨i, by rwa [List.length_map]⟩ : Fin (T.map Prod.fst).length) =
            ⟨j, by rwa [List.length_map]⟩ :=
          (List.Nodup.get_inj_iff hnodup).1 (by rw [hmap_i, hmap_j]; exact hfst)
        have hij' : i = j := by simpa using hfin
        omega
      rcases hrel with hlt | ⟨hsimeq, hle⟩
      · refine ⟨by rw [hgeti, hgetj]; exact le_of_lt hlt, fun heq => ?_⟩
        rw [hgeti, hgetj] at heq
        rw [heq] at hlt
        exact absurd hlt (lt_irrefl _)
      · refine ⟨by rw [hgeti, hgetj, hsimeq], fun _ => ?_⟩
        simp only [dif_pos hiT, dif_pos hjT]
        exact lt_of_le_of_ne hle hfst_ne

/-! ## Concrete similarity values used by witnesses and counterexamples -/

theorem jsMagnitude_one_zero : jsMagnitude [(1 : ℝ), 0] = 1 := by
  rw [jsMagnitude, sqSum]
  norm_num [Real.sqrt_one]

theorem jsMagnitude_zero_one : jsMagnitude [(0 : ℝ), 1] = 1 := by
  rw [jsMagnitude, sqSum]
  norm_num [Real.sqrt_one]

theorem jsMagnitude_zero_one_zero : jsMagnitude [(0 : ℝ), 1, 0] = 1 := by
  rw [jsMagnitude, sqSum]
  norm_num [Real.sqrt_one]

theorem cosSimVal_ten_ten : EmbeddingService.cosSimVal [(1 : ℝ), 0] [1, 0] = 1 := by
  rw [EmbeddingService.cosSimVal,
    if_neg (by rw [jsMagnitude_one_zero]; norm_num), jsMagnitude_one_zero, clamp1]
  norm_num [jsDot]

theorem cosSimVal_ten_zeroone : EmbeddingService.cosSimVal [(1 : ℝ), 0] [0, 1] = 0 := by
  rw [EmbeddingService.cosSimVal,
    if_neg (by rw [jsMagnitude_one_zero, jsMagnitude_zero_one]; norm_num),
    jsMagnitude_one_zero, jsMagnitude_zero_one, clamp1]
  norm_num [jsDot]

/-- Witness for C1: the spec's concrete scenario — corpus with embeddings
`[1,0]` and `[0,1]`, query `[1,0]`, `limit = 1` — returns exactly the first
document with similarity `1`, and the theorem applies to it. -/
theorem bruteForceSearch_sorted_spec_witness :
    (0 : Int) < 1 ∧
    VectorSearch.bruteForceSearch [1, 0]
      [⟨"1", "a", [1, 0], ⟨"t0", none, 1⟩⟩, ⟨"2", "b", [0, 1], ⟨"t0", none, 1⟩⟩] 1 =
      .ok [⟨⟨"1", "a", [1, 0], ⟨"t0", none, 1⟩⟩, 1⟩] ∧
    ([⟨⟨"1", "a", [1, 0], ⟨"t0", none, 1⟩⟩, 1⟩] : List SearchResult).length ≤
      (1 : Int).toNat := by
  have hwf : ∀ d ∈ [(⟨"1", "a", [1, 0], ⟨"t0", none, 1⟩⟩ : Document),
      ⟨"2", "b", [0, 1], ⟨"t0", none, 1⟩⟩],
      ([(1 : ℝ), 0]).length = d.embedding.length := by
    intro d hd
    rcases List.mem_cons.1 hd with rfl | hd2
    · rfl
    · rw [List.mem_singleton.1 hd2]
      rfl
  have hsort : VectorSearch.jsStableSortDesc
      [⟨⟨"1", "a", [1, 0], ⟨"t0", none, 1⟩⟩, (1 : ℝ)⟩,
       ⟨⟨"2", "b", [0, 1], ⟨"t0", none, 1⟩⟩, (0 : ℝ)⟩] =
      [⟨⟨"1", "a", [1, 0], ⟨"t0", none, 1⟩⟩, 1⟩,
       ⟨⟨"2", "b", [0, 1], ⟨"t0", none, 1⟩⟩, 0⟩] := by
    rw [VectorSearch.jsStableSortDesc]
    norm_num [List.enum, List.enumFrom, List.insertionSort, List.orderedInsert,
      VectorSearch.rankRel]
  have hok : VectorSearch.bruteForceSearch [1, 0]
      [⟨"1", "a", [1, 0], ⟨"t0", none, 1⟩⟩, ⟨"2", "b", [0, 1], ⟨"t0", none, 1⟩⟩] 1 =
      .ok [⟨⟨"1", "a", [1, 0], ⟨"t0", none, 1⟩⟩, 1⟩] := by
    refine (VectorSearch.bruteForceSearch_ok_iff _ _ _ _).2
      ⟨[⟨⟨"1", "a", [1, 0], ⟨"t0", none, 1⟩⟩, 1⟩,
        ⟨⟨"2", "b", [0, 1], ⟨"t0", none, 1⟩⟩, 0⟩], ?_, ?_⟩
    · rw [VectorSearch.scoreAll_ok_of_wf _ _ hwf]
      simp [cosSimVal_ten_ten, cosSimVal_ten_zeroone]
    · rw [hsort]
      simp [jsSlice0]
  exact ⟨by norm_num, hok,
    (bruteForceSearch_sorted_spec [1, 0]
      [⟨"1", "a", [1, 0], ⟨"t0", none, 1⟩⟩, ⟨"2", "b", [0, 1], ⟨"t0", none, 1⟩⟩]
      1 _ (by norm_num) hok).1⟩

/-! ## C2 — dimension-mismatch policy -/

theorem routeCos_ten_ten : SearchRoute.cosineSimilarity [(1 : ℝ), 0] [1, 0] = some 1 := by
  rw [SearchRoute.cosineSimilarity,
    if_neg (by rw [jsMagnitude_one_zero]; norm_num),
    if_neg (by norm_num), jsMagnitude_one_zero]
  norm_num [jsDot]

theorem routeCos_ten_zeroonezero :
    SearchRoute.cosineSimilarity [(1 : ℝ), 0] [0, 1, 0] = some 0 := by
  rw [SearchRoute.cosineSimilarity,
    if_neg (by rw [jsMagnitude_one_zero, jsMagnitude_zero_one_zero]; norm_num),
    if_neg (by norm_num), jsMagnitude_one_zero, jsMagnitude_zero_one_zero]
  norm_num [jsDot]

/-- **C2, counterexample.** A corpus holding a length-2 and a length-3
embedding, queried with a length-2 vector: the search route does **not**
fail with `DimensionMismatch` — it silently scores the mismatched document
(its truncated dot product gives similarity `0`) and returns a result set
computed over it. -/
theorem searchRoute_mismatch_not_failfast :
    ([0, 1, 0] : List ℝ).length ≠ ([1, 0] : List ℝ).length ∧
    SearchRoute.search [1, 0]
      [⟨"1", "a", [1, 0], ⟨"t0", none, 1⟩⟩, ⟨"2", "b", [0, 1, 0], ⟨"t0", none, 1⟩⟩]
      10 =
      [⟨⟨"1", "a", ⟨"t0", none, 1⟩⟩, some 1⟩, ⟨⟨"2", "b", ⟨"t0", none, 1⟩⟩, some 0⟩] := by
  refine ⟨by norm_num, ?_⟩
  rw [SearchRoute.search]
  have hscore : SearchRoute.scoreAll [1, 0]
      [⟨"1", "a", [1, 0], ⟨"t0", none, 1⟩⟩, ⟨"2", "b", [0, 1, 0], ⟨"t0", none, 1⟩⟩] =
      [⟨⟨"1", "a", ⟨"t0", none, 1⟩⟩, some 1⟩,
       ⟨⟨"2", "b", ⟨"t0", none, 1⟩⟩, some 0⟩] := by
    rw [SearchRoute.scoreAll]
    simp [SearchRoute.routeDocOf, routeCos_ten_ten, routeCos_ten_zeroonezero]
  rw [hscore]
  norm_num [List.enum, List.enumFrom, List.insertionSort, List.orderedInsert,
    SearchRoute.routeRankRel, jsSlice0]

/-- **C2, amended.** On a corpus containing a document whose embedding
length differs from the query's, the two search paths diverge:
`bruteForceSearch` (which scores through the length-checking
`EmbeddingService.cosineSimilarity`) fails fast with `DimensionMismatch`,
while the API search route performs no dimension check and returns a
result set over the *entire* corpus, the mismatched document included. -/
theorem search_mismatch_behavior_amended (q : List ℝ) (docs : List Document)
    (limit lim2 : Int) (hbad : ∃ d ∈ docs, q.length ≠ d.embedding.length)
    (hlim2 : (docs.length : Int) ≤ lim2) :
    VectorSearch.bruteForceSearch q docs limit = .error .dimensionMismatch ∧
    ((SearchRoute.search q docs lim2).map RouteSearchResult.document).Perm
      (docs.map SearchRoute.routeDocOf) := by
  constructor
  · unfold VectorSearch.bruteForceSearch
    rw [VectorSearch.scoreAll_error_of_mismatch q docs hbad]
  · unfold SearchRoute.search
    have hlen : (((SearchRoute.scoreAll q docs).enum.insertionSort
        SearchRoute.routeRankRel).map Prod.snd).length = docs.length := by
      rw [List.length_map, (List.perm_insertionSort _ _).length_eq,
        List.enum_length, SearchRoute.scoreAll, List.length_map]
    rw [jsSlice0, if_neg (by omega), List.take_of_length_le (by rw [hlen]; omega),
      List.map_map]
    have hperm2 : ((SearchRoute.scoreAll q docs).enum.insertionSort
        SearchRoute.routeRankRel).Perm (SearchRoute.scoreAll q docs).enum :=
      List.perm_insertionSort _ _
    have hfinal : ((SearchRoute.scoreAll q docs).enum.map
        (RouteSearchResult.document ∘ Prod.snd)) = docs.map SearchRoute.routeDocOf := by
      rw [← List.map_map, List.enum_map_snd, SearchRoute.scoreAll, List.map_map]
      rfl
    rw [← hfinal]
    exact hperm2.map _

/-- Witness for the amended C2 at the mixed-dimension corpus of the spec's
scenario: `bruteForceSearch` aborts with the dimension error. -/
theorem search_mismatch_behavior_amended_witness :
    (∃ d ∈ [(⟨"1", "a", [1, 0], ⟨"t0", none, 1⟩⟩ : Document),
        ⟨"2", "b", [0, 1, 0], ⟨"t0", none, 1⟩⟩],
      ([(1 : ℝ), 0]).length ≠ d.embedding.length) ∧
    VectorSearch.bruteForceSearch [1, 0]
      [⟨"1", "a", [1, 0], ⟨"t0", none, 1⟩⟩, ⟨"2", "b", [0, 1, 0], ⟨"t0", none, 1⟩⟩]
      10 = .error .dimensionMismatch := by
  have hbad : ∃ d ∈ [(⟨"1", "a", [1, 0], ⟨"t0", none, 1⟩⟩ : Document),
      ⟨"2", "b", [0, 1, 0], ⟨"t0", none, 1⟩⟩],
      ([(1 : ℝ), 0]).length ≠ d.embedding.length := by
    refine ⟨⟨"2", "b", [0, 1, 0], ⟨"t0", none, 1⟩⟩, ?_, by norm_num⟩
    simp
  exact ⟨hbad,
    (search_mismatch_behavior_amended [1, 0] _ 10 10 hbad (by norm_num)).1⟩

/-- Witness for the amended C3: a well-formed persisted document array is
returned exactly as stored. -/
theorem getAllDocuments_recovery_amended_witness :
    JSONStorage.getAllDocuments
        (.value (.docArray [⟨"1", "a", [1], ⟨"t0", none, 1⟩⟩])) =
      .docArray [⟨"1", "a", [1], ⟨"t0", none, 1⟩⟩] :=
  getAllDocuments_recovery_amended.2.2 _

/-- Witness for C9 on a concrete one-document corpus with category
`"c1"`. -/
theorem getStats_empty_and_categories_witness :
    (JSONStorage.getStats [⟨"1", "a", [1], ⟨"t0", some "c1", 1⟩⟩]).categories.Nodup ∧
    ("c1" ∈ (JSONStorage.getStats [⟨"1", "a", [1], ⟨"t0", some "c1", 1⟩⟩]).categories ↔
      ("c1" ≠ "" ∧ ∃ d ∈ [(⟨"1", "a", [1], ⟨"t0", some "c1", 1⟩⟩ : Document)],
        d.metadata.category = some "c1")) :=
  ⟨(getStats_empty_and_categories.2 _).1, (getStats_empty_and_categories.2 _).2 "c1"⟩
